import Mathlib

/-!
Shallow embedding of the two converter scripts of this repository
(`src/data/colours/ParseColors.py` and `src/data/alphabets/ConvertAlphabet.py`)
and proofs settling the frozen claims about them.

XML element trees are modelled by `XNode`; element attribute dictionaries are
modelled by insertion-ordered association lists (Python `dict` preserves
insertion order, and updating an existing key keeps its position, which
`setAttr` mirrors).  Python runtime errors that the scripts can raise
(`IndexError` from list indexing, the `NameError` on the undefined
identifier `parentName`) are modelled with `Except PyErr`.
-/

/-- An XML tree node: an element with a tag, an ordered attribute list and
ordered children, or a comment node (the scripts parse with
`insert_comments=True`, so comments are first-class children). -/
inductive XNode where
  | elem (tag : String) (attrs : List (String × String)) (children : List XNode)
  | comment (text : String)

/-- Attribute list of a node (a comment has none). -/
def attrsOf : XNode → List (String × String)
  | XNode.elem _ a _ => a
  | XNode.comment _ => []

/-- Children list of a node (a comment has none). -/
def childrenOf : XNode → List XNode
  | XNode.elem _ _ c => c
  | XNode.comment _ => []

/-- Tag of a node; a comment node reports the marker tag
"function Comment" because in the source a comment's tag is the
`ET.Comment` function and the scripts test `"function Comment" in str(element.tag)`. -/
def tagOf : XNode → String
  | XNode.elem t _ _ => t
  | XNode.comment _ => "function Comment"

/-- Dictionary lookup on an attribute list:
`Element.attrib[attrib] if attrib in Element.attrib else alt` with `alt = None`. -/
def getAttrib (attrs : List (String × String)) (k : String) : Option String :=
  (attrs.find? (fun p => p.1 == k)).map (fun p => p.2)

/-- `getAttrib` with a non-`None` default `alt`. -/
def getAttribD (attrs : List (String × String)) (k alt : String) : String :=
  (getAttrib attrs k).getD alt

/-- Python `dict` assignment `attrib[k] = v`: overwrite in place if the key
exists (keeping its position), else append at the end. -/
def setAttr (attrs : List (String × String)) (k v : String) : List (String × String) :=
  if attrs.any (fun p => p.1 == k) then
    attrs.map (fun p => if p.1 == k then (k, v) else p)
  else attrs ++ [(k, v)]

/-- Errors the Python scripts can raise while transforming (modulo I/O):
out-of-range list indexing, and the reference to an undefined identifier. -/
inductive PyErr where
  | indexError
  | nameError (name : String)
deriving DecidableEq, Repr

/-- Python list indexing `xs[i]` for a non-negative index: raises `IndexError`
when out of range. -/
def getItem {α : Type} (xs : List α) (i : Nat) : Except PyErr α :=
  match xs.get? i with
  | some x => Except.ok x
  | none => Except.error PyErr.indexError

/-! ## ParseColors.py -/

/-- A legacy `colour` element of a palette document: the optional integer
attributes `r`, `g`, `b`, `a`. -/
structure Colour where
  r : Option Nat
  g : Option Nat
  b : Option Nat
  a : Option Nat
deriving DecidableEq, Repr

/-- `parseColor` (ParseColors.py line 8): channel defaults 0,0,0,255.
Always returns a 4-element list. -/
def parseColor (c : Colour) : List Nat :=
  [c.r.getD 0, c.g.getD 0, c.b.getD 0, c.a.getD 255]

/-- Python `"{:02x}".format(n)`: lowercase hex, zero-padded to width at
least 2 (longer if the value needs more digits). -/
def hex2 (n : Nat) : String :=
  let ds := Nat.toDigits 16 n
  String.mk (List.replicate (2 - ds.length) '0' ++ ds)

/-- `printColor` (ParseColors.py line 13): a 3-channel list, or a 4-channel
list with alpha 255, renders as "#rrggbb"; any other 4-channel list renders
as "#rrggbbaa"; for any other length the Python function falls through and
returns `None`. -/
def printColor (color : List Nat) : Option String :=
  match color with
  | [r, g, b] => some ("#" ++ hex2 r ++ hex2 g ++ hex2 b)
  | [r, g, b, a] =>
    if a = 255 then some ("#" ++ hex2 r ++ hex2 g ++ hex2 b)
    else some ("#" ++ hex2 r ++ hex2 g ++ hex2 b ++ hex2 a)
  | _ => none

/-- `printColor(parseColor(c))`; since `parseColor` always yields a
4-element list this is always `some`, and the default never fires. -/
def printColour (c : Colour) : String :=
  (printColor (parseColor c)).getD ""

/-- The `NamedColors` table (ParseColors.py lines 34-60), verbatim. -/
def NamedColors : List (Nat × String) :=
  [(0, "backgroundColor"),
   (1, "inputLineColor"),
   (2, "inputPositionColor"),
   (5, "crosshairColor"),
   (7, "rootNodeColor"),
   (3, "defaultOutlineColor"),
   (4, "defaultLabelColor"),
   (1, "selectionHighlightColor"),
   (2, "selectionInactiveColor"),
   (2, "circleOutlineColor"),
   (242, "circleStoppedColor"),
   (241, "circleWaitingColor"),
   (240, "circleStartedColor"),
   (119, "firstStartBoxColor"),
   (120, "secondStartBoxColor"),
   (240, "twoPushDynamicActiveMarkerColor"),
   (61, "twoPushDynamicInactiveMarkerColor"),
   (2, "oneButtonDynamicOuterGuidesColor"),
   (62, "twoPushDynamicOuterGuidesColor"),
   (0, "infoTextColor"),
   (5, "infoTextBackgroundColor"),
   (111, "warningTextColor"),
   (5, "warningTextBackgroundColor"),
   (135, "gameGuideColor"),
   (9, "conversionNodeColor")]

/-- `cr(min, max)` (ParseColors.py line 62): the inclusive range. -/
def cr (a b : Nat) : List Nat :=
  List.range' a (b + 1 - a)

/-- One row of the `knownGroups` table:
name, member index list, generateAltColors, group accent index (-1 = none). -/
structure GroupSpec where
  name : String
  colorsRange : List Nat
  generateAltColors : Bool
  groupColor : Int
deriving DecidableEq, Repr

/-- The `knownGroups` table (ParseColors.py lines 65-76), verbatim,
duplicates preserved. -/
def knownGroups : List GroupSpec :=
  [⟨"lowercase", cr 10 39, true, -1⟩,
   ⟨"lowercaseBackground", cr 10 39, true, 99⟩,
   ⟨"uppercase", cr 10 38, true, 111⟩,
   ⟨"punctuation", [105, 103, 104, 100, 104], true, 112⟩,
   ⟨"limitedPunctuation", [99, 109, 105, 103, 104, 100, 104], true, 112⟩,
   ⟨"punctuationLong",
    [90, 91, 92, 93, 94, 95, 96, 97, 98, 99, 95, 96, 97, 98, 105, 106, 107,
     108, 109, 105, 106, 107, 108, 109, 106, 107, 108, 109, 105, 9, 100,
     101, 102, 103, 104, 100, 104], true, 112⟩,
   ⟨"numbers", cr 90 94, true, 113⟩,
   ⟨"accents", [72, 82], true, 112⟩,
   ⟨"space", [9], false, -1⟩,
   ⟨"paragraph", [9], false, -1⟩,
   ⟨"paragraphSpace", [9, 9], false, -1⟩]

/-- `getColorSequence` (ParseColors.py line 19): hex-print the palette entry
at each index of the range, joined with commas; indexing can raise. -/
def getColorSequence (colors : List Colour) (range : List Nat) :
    Except PyErr String := do
  let hexes ← range.mapM (fun i => do
    let c ← getItem colors i
    pure (printColour c))
  pure (String.intercalate "," hexes)

/-- The `if(groupColor > 0)` step of `addGroup` (ParseColors.py lines
28-30): for a strictly positive accent index, attach `groupColor` (the hex
of the slot at that index) and `groupOutlineColor` (the hex of slot 3) to
the attribute dictionary; the source's strict `>` leaves index 0 with
neither attribute.  Indexing can raise `IndexError`. -/
def accentAttrs (a0 : List (String × String)) (groupColor : Int)
    (colors : List Colour) : Except PyErr (List (String × String)) :=
  if 0 < groupColor then
    match getItem colors groupColor.toNat with
    | Except.error e => Except.error e
    | Except.ok gc =>
      match getItem colors 3 with
      | Except.error e => Except.error e
      | Except.ok oc =>
        Except.ok (setAttr (setAttr a0 "groupColor" (printColour gc))
          "groupOutlineColor" (printColour oc))
  else Except.ok a0

/-- `addGroup` (ParseColors.py line 25), with the mutation of `parent`
replaced by returning the `groupColorInfo` element that the source
appends: the `name` attribute, the `accentAttrs` step, the
`nodeColorSequence`, and for `generateAltColors` the alternate sequence
with every member index shifted by +130. -/
def addGroup (colorsRange : List Nat) (name : String) (groupColor : Int)
    (generateAltColors : Bool) (colors : List Colour) : Except PyErr XNode :=
  match accentAttrs [("name", name)] groupColor colors with
  | Except.error e => Except.error e
  | Except.ok a1 =>
    match getColorSequence colors colorsRange with
    | Except.error e => Except.error e
    | Except.ok seq =>
      if generateAltColors then
        match getColorSequence colors (colorsRange.map (fun x => x + 130)) with
        | Except.error e => Except.error e
        | Except.ok altSeq =>
          Except.ok (XNode.elem "groupColorInfo"
            (setAttr (setAttr a1 "nodeColorSequence" seq)
              "altNodeColorSequence" altSeq) [])
      else Except.ok (XNode.elem "groupColorInfo"
        (setAttr a1 "nodeColorSequence" seq) [])

/-- The named-color loop of `ExtractColors` (ParseColors.py lines 93-97):
for each table row compute the hex at the row's slot, and when the name has
no baseline entry or the baseline value differs, emit the pair.  The source
inserts the pair into both `output.attrib` and `extractedNamedColors` under
the same guard, so one emitted list models both. -/
def processNamed (colors : List Colour) (excludeColors : List (String × String)) :
    List (Nat × String) → Except PyErr (List (String × String))
  | [] => Except.ok []
  | (colorIndex, colorName) :: rest =>
    match getItem colors colorIndex with
    | Except.error e => Except.error e
    | Except.ok c =>
      match processNamed colors excludeColors rest with
      | Except.error e => Except.error e
      | Except.ok tail =>
        match getAttrib excludeColors colorName with
        | none => Except.ok ((colorName, printColour c) :: tail)
        | some v =>
          if v ≠ printColour c then Except.ok ((colorName, printColour c) :: tail)
          else Except.ok tail

/-- Result of `ExtractColors`: the output `colors` document and the returned
`extractedNamedColors` mapping. -/
structure ColorsOut where
  doc : XNode
  extracted : List (String × String)

/-- `ExtractColors` (ParseColors.py line 79), minus file I/O: takes the
palette's declared name, its `colour` element list and the baseline
`excludeColors` mapping.  When the palette name is not "Default" the source
executes `output.attrib[parentName] = "Default"` where `parentName` is an
undefined identifier, so Python raises `NameError` at that point; the model
returns that error.  The emitted named-color pairs are folded into the
attribute dictionary in loop order (each table name is distinct from "name",
so this reproduces the in-place `output.attrib[colorName] = ...` writes). -/
def ExtractColors (paletteName : String) (colors : List Colour)
    (excludeColors : List (String × String)) : Except PyErr ColorsOut :=
  if paletteName ≠ "Default" then
    Except.error (PyErr.nameError "parentName")
  else
    match processNamed colors excludeColors NamedColors with
    | Except.error e => Except.error e
    | Except.ok named =>
      match knownGroups.mapM
          (fun g => addGroup g.colorsRange g.name g.groupColor
            g.generateAltColors colors) with
      | Except.error e => Except.error e
      | Except.ok groups =>
        Except.ok
          { doc := XNode.elem "colors"
              (named.foldl (fun acc p => setAttr acc p.1 p.2)
                [("name", paletteName)]) groups,
            extracted := named }

/-- Unwrap an ok `ExtractColors` result (used only at inputs where the run
is proven to succeed). -/
def resOf (e : Except PyErr ColorsOut) : ColorsOut :=
  match e with
  | Except.ok r => r
  | Except.error _ => ⟨XNode.comment "", []⟩

/-- Unwrap an ok `addGroup` result (used only at inputs where the run is
proven to succeed). -/
def nodeOf (e : Except PyErr XNode) : XNode :=
  match e with
  | Except.ok n => n
  | Except.error _ => XNode.comment ""

/-- A palette with 243 colour entries carrying no attributes (every channel
defaulted), long enough for every index the tables touch. -/
def colors243 : List Colour :=
  List.replicate 243 ⟨none, none, none, none⟩

/-! ## ConvertAlphabet.py -/

/-- `conversionMode2str` (ConvertAlphabet.py lines 43-45): the fixed
5-entry lookup table, verbatim (including the misspelling
"routingContextInsensitve" in the source).  Python indexes the table with
`LUT[int(convMode)]`, raising `IndexError` for any other index; `none`
models that erroneous case. -/
def conversionMode2str (convMode : Nat) : Option String :=
  ["none", "none", "mandarin", "routingContextInsensitve",
   "routingContextSensitive"].get? convMode

/-- Whether a node is a legacy character-container element `s`.  In the
source the collapse test reads `children[0].tag == group or
children[0].tag == "s"`, where `group` is not the string "group" but the
`Element` object bound by the enclosing `for group in
alphabet.findall("group")` loop; a tag string never equals an `Element`,
so that first disjunct is always false and only the `"s"` comparison can
hold. -/
def isCharContainer (n : XNode) : Bool :=
  tagOf n == "s"

/-- A legacy character entry as built by `getCharData`
(ConvertAlphabet.py lines 33-40): the list
`[getAttrib(tag,'d'), getAttrib(tag,'t'), getAttrib(tag,'b',-1),
getAttrib(tag,'note',"")]`.  The `b` slot holds the attribute string when
present and the int `-1` when absent; since a Python string never equals
the int `-1`, `Option String` with `none` for the sentinel is faithful to
every comparison the scripts make on it.  The `d` slot defaults to `None`
in the source; the converter assumes a display glyph is present, and the
model defaults it to `""`. -/
structure CharData where
  d : String
  t : Option String
  b : Option String
  note : String
deriving DecidableEq, Repr

/-- `getCharData` applied to the attribute list of an `s` element. -/
def getCharData (attrs : List (String × String)) : CharData :=
  { d := getAttribD attrs "d" "",
    t := getAttrib attrs "t",
    b := getAttrib attrs "b",
    note := getAttribD attrs "note" "" }

/-- Python `ord` on the one-character strings the converter feeds it (for a
longer string Python `ord` raises `TypeError`; the model is only applied to
single-character glyphs, where it returns the code point). -/
def ordPy (s : String) : Nat :=
  match s.data with
  | c :: _ => c.toNat
  | [] => 0

/-- `AddCharData` (ConvertAlphabet.py lines 9-21), with the mutation of
`Parent` replaced by returning the `node` element that the source appends.
Children in source order: the optional legacy-color comment, the optional
note comment, then the `textCharAction` element, which carries a `unicode`
attribute exactly when an alternate glyph exists and differs from the
display glyph.  The `AlphabetUsesCharColors` global flag the source also
sets is not modelled (no claim concerns it). -/
def AddCharData (data : CharData) : XNode :=
  let colorKids : List XNode :=
    match data.b with
    | some c => [XNode.comment ("Old Char Color: " ++ c)]
    | none => []
  let noteKids : List XNode :=
    if data.note ≠ "" then [XNode.comment ("Note: " ++ data.note)] else []
  let inputAttrs : List (String × String) :=
    match data.t with
    | some tv => if data.d ≠ tv then [("unicode", toString (ordPy tv))] else []
    | none => []
  XNode.elem "node" [("label", data.d)]
    (colorKids ++ noteKids ++ [XNode.elem "textCharAction" inputAttrs []])

mutual

/-- `parseRecursive` (ConvertAlphabet.py lines 47-84), with the mutation of
`outputElement` replaced by returning the list of nodes the call appends to
it, paired with the boolean the source returns.  The group arm mirrors the
source: resolve `visible` (forced to "no" by `explicitInvisible`), read
`name`/`label`, collapse into a single child when the collapse test holds
(see `isCharContainer` for why only an `s` child can pass it), else emit a
group via `emitGroup`.  An `s` element emits its character node and
returns whether the legacy color slot was set; a comment is copied
through; every other element, and every emitted group, falls through to
`return False`. -/
def parseRecursive (element : XNode) (explicitInvisible : Bool) :
    List XNode × Bool :=
  match element with
  | XNode.comment txt => ([XNode.comment txt], false)
  | XNode.elem tag attrs children =>
    if tag = "group" then
      let visible := if explicitInvisible then "no" else getAttribD attrs "visible" "yes"
      let name := getAttrib attrs "name"
      let label := getAttrib attrs "label"
      match children with
      | [c] =>
        if isCharContainer c && visible == "no" && name.isNone && label.isNone then
          parseRecursive c false
        else
          emitGroup attrs [c] visible name label
      | cs => emitGroup attrs cs visible name label
    else if tag = "s" then
      let data := getCharData attrs
      ([AddCharData data], data.b.isSome)
    else
      ([], false)
termination_by (sizeOf element, 2)

/-- The non-collapsed branch of the group arm (ConvertAlphabet.py lines
60-74): build the new `group` element — `name` attribute if present,
`label` if present and non-empty, then if the group is visible and has a
legacy `b` color a `colorInfoName` attribute (when named) and a
diagnostic comment — recurse into every child with
`explicitInvisible=False`, and if any child reported color and the group
is named, set/overwrite `colorInfoName`.  The emitted pair's boolean is
`false`: the source's group arm falls through to its final
`return False`.  (The `AlphabetUsesGroupColors` global is not modelled.) -/
def emitGroup (attrs : List (String × String)) (children : List XNode)
    (visible : String) (name label : Option String) : List XNode × Bool :=
  let color := getAttrib attrs "b"
  let a0 : List (String × String) :=
    match name with
    | some n => [("name", n)]
    | none => []
  let a1 :=
    match label with
    | some l => if l ≠ "" then a0 ++ [("label", l)] else a0
    | none => a0
  let a2 :=
    if visible ≠ "no" then
      match color, name with
      | some _, some n => setAttr a1 "colorInfoName" n.toLower
      | _, _ => a1
    else a1
  let preKids : List XNode :=
    if visible ≠ "no" then
      match color with
      | some c => [XNode.comment ("Old Group Color: " ++ c)]
      | none => []
    else []
  let r := parseChildren children
  let a3 :=
    match name with
    | some n => if r.2 then setAttr a2 "colorInfoName" n.toLower else a2
    | none => a2
  ([XNode.elem "group" a3 (preKids ++ r.1)], false)
termination_by (sizeOf children, 1)

/-- The child loop of the group arm (ConvertAlphabet.py lines 71-73):
`ChildUsesColors = parseRecursive(child, newGroup, False) or
ChildUsesColors` over every child in order (every call is made; the `or`
accumulates). -/
def parseChildren : List XNode → List XNode × Bool
  | [] => ([], false)
  | c :: rest =>
    let r := parseRecursive c false
    let rs := parseChildren rest
    (r.1 ++ rs.1, r.2 || rs.2)
termination_by l => (sizeOf l, 0)

end

/-- The exact condition under which `parseRecursive` reports color, read
off the source: an `s` element whose legacy `b` color attribute is set
reports color, and a group that passes the collapse test reports whatever
its single `s` child reports; an emitted group (and anything else) falls
through to `return False`. -/
def returnsColor (element : XNode) (explicitInvisible : Bool) : Bool :=
  if tagOf element = "s" then (getAttrib (attrsOf element) "b").isSome
  else if tagOf element = "group" then
    match childrenOf element with
    | [c] =>
      let visible :=
        if explicitInvisible then "no" else getAttribD (attrsOf element) "visible" "yes"
      (isCharContainer c && visible == "no"
          && (getAttrib (attrsOf element) "name").isNone
          && (getAttrib (attrsOf element) "label").isNone)
        && (getAttrib (attrsOf c) "b").isSome
    | _ => false
  else false

/-- Whether a node is an element tagged `textCharAction`. -/
def isTextCharAction : XNode → Bool
  | XNode.elem "textCharAction" _ _ => true
  | _ => false

/-- The first `textCharAction` child element of a node. -/
def textCharActionOf (n : XNode) : Option XNode :=
  (childrenOf n).find? isTextCharAction

/-- The attribute list of a node's `textCharAction` child element. -/
def tcaAttrs (n : XNode) : Option (List (String × String)) :=
  (textCharActionOf n).map attrsOf

/-! ## Concrete runs used as witnesses and counterexamples -/

/-- Whether a string is exactly two lowercase hexadecimal digits. -/
def isHex2 (s : String) : Bool :=
  s.length == 2 && s.data.all (fun c => "0123456789abcdef".data.contains c)

/-- The default palette processed with an empty baseline, as the script's
first `ExtractColors("colour.xml", [])` call does. -/
def defaultRun : Except PyErr ColorsOut :=
  ExtractColors "Default" colors243 []

/-- A palette named "Default" processed against a baseline that already
maps `backgroundColor` to the hex this palette computes for it. -/
def suppressedRun : Except PyErr ColorsOut :=
  ExtractColors "Default" colors243 [("backgroundColor", "#000000")]

/-- An `addGroup` call whose group accent index is 0. -/
def addGroupZeroRun : Except PyErr XNode :=
  addGroup [0] "zeroAccent" 0 false colors243

/-- An `addGroup` call with a positive group accent index (the `uppercase`
row's index 111). -/
def addGroupAccentRun : Except PyErr XNode :=
  addGroup [0] "uppercase" 111 false colors243

/-! ## Helper lemmas -/

/-- The group arm of the source always falls through to `return False`:
the pair built by `emitGroup` carries `false` whatever the children
reported. -/
theorem emitGroup_snd (attrs : List (String × String)) (children : List XNode)
    (visible : String) (name label : Option String) :
    (emitGroup attrs children visible name label).2 = false := by
  rw [emitGroup.eq_def]

/-- `getItem` succeeds with `x` exactly when positional lookup yields `x`. -/
theorem getItem_eq_ok {α : Type} (xs : List α) (i : Nat) (x : α) :
    getItem xs i = Except.ok x ↔ xs.get? i = some x := by
  unfold getItem
  cases h : xs.get? i <;> simp

/-- Setting a key that does not occur yet appends the pair at the end. -/
theorem setAttr_append_of_fresh (attrs : List (String × String)) (k v : String)
    (h : ∀ p ∈ attrs, p.1 ≠ k) : setAttr attrs k v = attrs ++ [(k, v)] := by
  have hany : attrs.any (fun p => p.1 == k) = false := by
    rw [List.any_eq_false]
    intro p hp
    simp [h p hp]
  simp [setAttr, hany]

/-- Folding `setAttr` over pairwise-fresh keys that also avoid the base
dictionary's keys is plain concatenation. -/
theorem foldl_setAttr_of_fresh (xs : List (String × String)) :
    ∀ base : List (String × String),
      (∀ x ∈ xs, ∀ b ∈ base, b.1 ≠ x.1) → (xs.map Prod.fst).Nodup →
      xs.foldl (fun acc p => setAttr acc p.1 p.2) base = base ++ xs := by
  induction xs with
  | nil => intro base _ _; simp
  | cons x rest ih =>
    intro base hfresh hnodup
    have hx1 : x.1 ∉ rest.map Prod.fst := by
      have h2 := hnodup
      simp only [List.map_cons, List.nodup_cons] at h2
      exact h2.1
    have hfresh2 : ∀ y ∈ rest, ∀ b ∈ base ++ [x], b.1 ≠ y.1 := by
      intro y hy b hb
      rcases List.mem_append.mp hb with hb1 | hb2
      · exact hfresh y (by simp [hy]) b hb1
      · have hbx : b = x := by simpa using hb2
        rw [hbx]
        intro hcontra
        exact hx1 (hcontra ▸ List.mem_map_of_mem Prod.fst hy)
    have hnodup2 : (rest.map Prod.fst).Nodup := by
      have h2 := hnodup
      simp only [List.map_cons, List.nodup_cons] at h2
      exact h2.2
    rw [List.foldl_cons,
      setAttr_append_of_fresh base x.1 x.2 (fun b hb => hfresh x (by simp) b hb),
      ih (base ++ [x]) hfresh2 hnodup2]
    simp

/-- The named-color loop emits a pair exactly when the table holds that
name at some slot whose computed hex is the pair's value and the baseline
does not already map the name to that same value. -/
theorem processNamed_ok_mem_iff (colors : List Colour)
    (exclude : List (String × String)) (table : List (Nat × String))
    (res : List (String × String))
    (h : processNamed colors exclude table = Except.ok res) (name hex : String) :
    (name, hex) ∈ res ↔
      ∃ i c, (i, name) ∈ table ∧ colors.get? i = some c ∧ hex = printColour c
        ∧ getAttrib exclude name ≠ some hex := by
  induction table generalizing res with
  | nil =>
    simp only [processNamed, Except.ok.injEq] at h
    subst h
    simp
  | cons hd rest ih =>
    obtain ⟨i, nm⟩ := hd
    simp only [processNamed] at h
    split at h
    · simp at h
    · rename_i c hc
      split at h
      · simp at h
      · rename_i tail ht
        have hgc : colors.get? i = some c := (getItem_eq_ok colors i c).mp hc
        split at h
        · rename_i hlook
          injection h with h2
          subst h2
          constructor
          · intro hmem
            rcases List.mem_cons.mp hmem with heq | htl
            · obtain ⟨rfl, rfl⟩ := Prod.mk.inj heq
              exact ⟨i, c, List.mem_cons_self _ _, hgc, rfl, by simp [hlook]⟩
            · obtain ⟨j, c2, hmem2, hg2, hhex, hne⟩ := (ih tail ht).mp htl
              exact ⟨j, c2, List.mem_cons_of_mem _ hmem2, hg2, hhex, hne⟩
          · rintro ⟨j, c2, hmem2, hg2, hhex, hne⟩
            rcases List.mem_cons.mp hmem2 with heq | hmem3
            · obtain ⟨rfl, rfl⟩ := Prod.mk.inj heq
              have hsome : some c = some c2 := hgc.symm.trans hg2
              obtain rfl := Option.some.inj hsome
              subst hhex
              exact List.mem_cons_self _ _
            · exact List.mem_cons_of_mem _
                ((ih tail ht).mpr ⟨j, c2, hmem3, hg2, hhex, hne⟩)
        · rename_i v hlook
          split at h
          · rename_i hv
            injection h with h2
            subst h2
            constructor
            · intro hmem
              rcases List.mem_cons.mp hmem with heq | htl
              · obtain ⟨rfl, rfl⟩ := Prod.mk.inj heq
                refine ⟨i, c, List.mem_cons_self _ _, hgc, rfl, ?_⟩
                rw [hlook]
                intro hcontra
                exact hv (Option.some.inj hcontra)
              · obtain ⟨j, c2, hmem2, hg2, hhex, hne⟩ := (ih tail ht).mp htl
                exact ⟨j, c2, List.mem_cons_of_mem _ hmem2, hg2, hhex, hne⟩
            · rintro ⟨j, c2, hmem2, hg2, hhex, hne⟩
              rcases List.mem_cons.mp hmem2 with heq | hmem3
              · obtain ⟨rfl, rfl⟩ := Prod.mk.inj heq
                have hsome : some c = some c2 := hgc.symm.trans hg2
                obtain rfl := Option.some.inj hsome
                subst hhex
                exact List.mem_cons_self _ _
              · exact List.mem_cons_of_mem _
                  ((ih tail ht).mpr ⟨j, c2, hmem3, hg2, hhex, hne⟩)
          · rename_i hv
            injection h with h2
            subst h2
            have hveq : v = printColour c := not_not.mp hv
            constructor
            · intro htl
              obtain ⟨j, c2, hmem2, hg2, hhex, hne⟩ := (ih tail ht).mp htl
              exact ⟨j, c2, List.mem_cons_of_mem _ hmem2, hg2, hhex, hne⟩
            · rintro ⟨j, c2, hmem2, hg2, hhex, hne⟩
              rcases List.mem_cons.mp hmem2 with heq | hmem3
              · obtain ⟨rfl, rfl⟩ := Prod.mk.inj heq
                have hsome : some c = some c2 := hgc.symm.trans hg2
                obtain rfl := Option.some.inj hsome
                subst hhex
                exact absurd (by rw [hlook, hveq]) hne
              · exact (ih tail ht).mpr ⟨j, c2, hmem3, hg2, hhex, hne⟩

/-- With an empty baseline the named-color loop emits every table row in
order: the emitted names are the table's names, and each row's computed
hex lands in the result. -/
theorem processNamed_noBaseline (colors : List Colour) (table : List (Nat × String))
    (res : List (String × String)) (h : processNamed colors [] table = Except.ok res) :
    res.map Prod.fst = table.map Prod.snd
    ∧ ∀ p ∈ table, ∃ c, colors.get? p.1 = some c ∧ (p.2, printColour c) ∈ res := by
  induction table generalizing res with
  | nil =>
    simp only [processNamed, Except.ok.injEq] at h
    subst h
    simp
  | cons hd rest ih =>
    obtain ⟨i, nm⟩ := hd
    simp only [processNamed] at h
    split at h
    · simp at h
    · rename_i c hc
      split at h
      · simp at h
      · rename_i tail ht
        split at h
        · rename_i hlook
          injection h with h2
          subst h2
          obtain ⟨hmap, hmem⟩ := ih tail ht
          refine ⟨by simp [hmap], ?_⟩
          intro p hp
          rcases List.mem_cons.mp hp with heq | hmem2
          · subst heq
            exact ⟨c, (getItem_eq_ok colors i c).mp hc, List.mem_cons_self _ _⟩
          · obtain ⟨c2, hg2, hin⟩ := hmem p hmem2
            exact ⟨c2, hg2, List.mem_cons_of_mem _ hin⟩
        · rename_i v hlook
          exact absurd hlook (by simp [getAttrib])

/-- Inversion of a successful `ExtractColors` run: the palette was named
"Default" (anything else dies on the `parentName` NameError), the
extracted mapping is the named-color loop's output, and the document's
attributes are that output folded over the base dictionary. -/
theorem ExtractColors_ok_inv (paletteName : String) (colors : List Colour)
    (exclude : List (String × String)) (res : ColorsOut)
    (h : ExtractColors paletteName colors exclude = Except.ok res) :
    paletteName = "Default"
    ∧ processNamed colors exclude NamedColors = Except.ok res.extracted
    ∧ attrsOf res.doc =
        res.extracted.foldl (fun acc p => setAttr acc p.1 p.2)
          [("name", "Default")] := by
  by_cases hname : paletteName = "Default"
  · subst hname
    unfold ExtractColors at h
    rw [if_neg (by simp)] at h
    split at h
    · simp at h
    · rename_i named hp
      split at h
      · simp at h
      · rename_i groups hg
        injection h with h2
        subst h2
        exact ⟨rfl, hp, rfl⟩
  · exfalso
    unfold ExtractColors at h
    rw [if_pos hname] at h
    simp at h

set_option maxRecDepth 8192 in
/-- Every channel value below 256 renders as exactly two lowercase
hexadecimal digits under `hex2`. -/
theorem hex2_isHex2 (n : Nat) (h : n < 256) : isHex2 (hex2 n) = true := by
  revert h
  revert n
  decide

/-! ## Claim theorems -/

/-- C3: the conversion-mode mapping is the fixed 5-entry table: indices
0 and 1 map to "none", 2 to "mandarin", 4 to "routingContextSensitive",
and any out-of-range index is erroneous (modelled `none`).  At index 3,
however, the code returns the misspelled string
"routingContextInsensitve", not the claim's "routingContextInsensitive":
the parallel entry "routingContextSensitive" is spelled out correctly, so
the dropped "i" is a slip in the source. -/
theorem conversionMode2str_table :
    conversionMode2str 0 = some "none"
    ∧ conversionMode2str 1 = some "none"
    ∧ conversionMode2str 2 = some "mandarin"
    ∧ conversionMode2str 3 = some "routingContextInsensitve"
    ∧ conversionMode2str 3 ≠ some "routingContextInsensitive"
    ∧ conversionMode2str 4 = some "routingContextSensitive"
    ∧ conversionMode2str 5 = none := by
  decide

/-- C7: `printColor` is total on 3-channel lists and on 4-channel lists
over the 0-255 domain: alpha 255 (or no alpha) yields "#rrggbb", any other
alpha yields "#rrggbbaa", each channel rendered by `hex2` as exactly two
zero-padded lowercase hex digits. -/
theorem printColor_total_hex (r g b a : Nat)
    (hr : r < 256) (hg : g < 256) (hb : b < 256) (ha : a < 256) :
    printColor [r, g, b] = some ("#" ++ hex2 r ++ hex2 g ++ hex2 b)
    ∧ printColor [r, g, b, 255] = some ("#" ++ hex2 r ++ hex2 g ++ hex2 b)
    ∧ (a ≠ 255 →
        printColor [r, g, b, a] = some ("#" ++ hex2 r ++ hex2 g ++ hex2 b ++ hex2 a))
    ∧ isHex2 (hex2 r) = true ∧ isHex2 (hex2 g) = true
    ∧ isHex2 (hex2 b) = true ∧ isHex2 (hex2 a) = true := by
  refine ⟨rfl, by simp [printColor], fun hne => by simp [printColor, hne],
    hex2_isHex2 r hr, hex2_isHex2 g hg, hex2_isHex2 b hb, hex2_isHex2 a ha⟩

/-- Witness for C7 at r=0, g=17, b=255, a=3. -/
theorem printColor_total_hex_witness :
    printColor [0, 17, 255, 3] = some "#0011ff03" := by
  have h := (printColor_total_hex 0 17 255 3 (by decide) (by decide) (by decide)
    (by decide)).2.2.1 (by decide)
  exact h.trans (by decide)

/-- C9: the `textCharAction` element of a normalized character node
carries a `unicode` attribute exactly when an alternate input glyph exists
and differs from the display glyph, and then its value is the alternate
glyph's code point; an absent alternate glyph, or one equal to the display
glyph, yields no attribute. -/
theorem AddCharData_codepoint (d note : String) (b : Option String) (c : Char) :
    tcaAttrs (AddCharData ⟨d, none, b, note⟩) = some []
    ∧ tcaAttrs (AddCharData ⟨d, some d, b, note⟩) = some []
    ∧ (d ≠ String.mk [c] →
        tcaAttrs (AddCharData ⟨d, some (String.mk [c]), b, note⟩) =
          some [("unicode", toString c.toNat)]) := by
  refine ⟨?_, ?_, fun hne => ?_⟩
  · cases b <;>
      by_cases hnote : note = "" <;>
        simp [tcaAttrs, textCharActionOf, AddCharData, childrenOf, isTextCharAction,
          attrsOf, tagOf, ordPy, hnote]
  · cases b <;>
      by_cases hnote : note = "" <;>
        simp [tcaAttrs, textCharActionOf, AddCharData, childrenOf, isTextCharAction,
          attrsOf, tagOf, ordPy, hnote]
  · cases b <;>
      by_cases hnote : note = "" <;>
        simp [tcaAttrs, textCharActionOf, AddCharData, childrenOf, isTextCharAction,
          attrsOf, tagOf, ordPy, hnote, hne]

/-- Witness for C9 at the spec's own example: display "B", alternate "b". -/
theorem AddCharData_codepoint_witness :
    tcaAttrs (AddCharData ⟨"B", some "b", none, ""⟩) = some [("unicode", "98")] := by
  have h := (AddCharData_codepoint "B" "" none 'b').2.2 (by decide)
  exact h.trans (by decide)

/-- C10: every normalized character node contains exactly one child
element tagged `textCharAction`; for an entry with no alternate glyph, no
legacy color and no note, the children are exactly one bare
`textCharAction` element with no attributes. -/
theorem AddCharData_textCharAction (d note : String) (t b : Option String) :
    (childrenOf (AddCharData ⟨d, t, b, note⟩)).countP isTextCharAction = 1
    ∧ (t = none → b = none → note = "" →
        childrenOf (AddCharData ⟨d, t, b, note⟩) = [XNode.elem "textCharAction" [] []]) := by
  constructor
  · cases t <;> cases b <;>
      by_cases hnote : note = "" <;>
        simp [AddCharData, childrenOf, isTextCharAction, List.countP_cons, hnote]
  · rintro rfl rfl rfl
    simp [AddCharData, childrenOf]

/-- Witness for C10 at a bare entry. -/
theorem AddCharData_textCharAction_witness :
    childrenOf (AddCharData ⟨"a", none, none, ""⟩) = [XNode.elem "textCharAction" [] []] :=
  (AddCharData_textCharAction "a" "" none none).2 rfl rfl rfl

/-- C2 (counter-evidence): a legacy group whose only child is a nested
group — unnamed, unlabeled, and resolved invisible because the caller
forces `explicitInvisible` — is NOT collapsed: the source compares the
child's tag against the `Element` object bound by the enclosing loop
variable `group` instead of the string "group", so the collapse test can
only pass for an `s` child.  First conjunct: the emitted output keeps the
wrapper group.  Second: recursing directly into the single child (what the
claimed collapse would have produced) yields the same content without the
wrapper, so the two outputs differ.  Third: a single `s` child in the same
position IS collapsed, confirming the asymmetry between the two child
kinds that the claim says behave identically. -/
theorem parseRecursive_single_group_child_not_collapsed :
    (parseRecursive (XNode.elem "group" []
        [XNode.elem "group" [("name", "inner")] [XNode.elem "s" [("d", "a")] []]]) true).1 =
      [XNode.elem "group" []
        [XNode.elem "group" [("name", "inner")]
          [XNode.elem "node" [("label", "a")] [XNode.elem "textCharAction" [] []]]]]
    ∧ (parseRecursive (XNode.elem "group" [("name", "inner")]
        [XNode.elem "s" [("d", "a")] []]) true).1 =
      [XNode.elem "group" [("name", "inner")]
        [XNode.elem "node" [("label", "a")] [XNode.elem "textCharAction" [] []]]]
    ∧ (parseRecursive (XNode.elem "group" [] [XNode.elem "s" [("d", "a")] []]) true).1 =
      [XNode.elem "node" [("label", "a")] [XNode.elem "textCharAction" [] []]] := by
  refine ⟨?_, ?_, ?_⟩ <;>
    simp [parseRecursive, emitGroup, parseChildren, getCharData, AddCharData,
      getAttrib, getAttribD, isCharContainer, tagOf, setAttr]

/-- C1 (counterexample): `parseRecursive` does not report "uses color"
upward.  A group whose direct character child carries legacy color 5
returns `false` (first conjunct), although that child alone returns `true`
(second conjunct); wrapping the group once more still returns `false`
(third conjunct).  The claim demands `true` for both group nodes. -/
theorem parseRecursive_nested_color_not_propagated :
    (parseRecursive (XNode.elem "group" [("name", "g")]
        [XNode.elem "s" [("d", "a"), ("b", "5")] []]) false).2 = false
    ∧ (parseRecursive (XNode.elem "s" [("d", "a"), ("b", "5")] []) false).2 = true
    ∧ (parseRecursive (XNode.elem "group" []
        [XNode.elem "group" [("name", "g")]
          [XNode.elem "s" [("d", "a"), ("b", "5")] []]]) false).2 = false := by
  refine ⟨?_, ?_, ?_⟩ <;>
    simp [parseRecursive, emitGroup, parseChildren, getCharData, AddCharData,
      getAttrib, getAttribD, isCharContainer, tagOf, setAttr]

/-- C1 (amended): the boolean returned by `parseRecursive` equals
`returnsColor`: it is `true` exactly when the node itself is a character
entry whose legacy color slot is set, or a group that the collapse rule
reduces to such an entry.  An emitted group always returns `false`
regardless of its descendants — the child loop's accumulated
`ChildUsesColors` only feeds the group's own `colorInfoName` attribute and
is not returned — so the marker propagates one level (character child to
enclosing group attribute) and never further up. -/
theorem parseRecursive_reports_color_iff (element : XNode) (explicitInvisible : Bool) :
    (parseRecursive element explicitInvisible).2 = returnsColor element explicitInvisible := by
  cases element with
  | comment txt => simp [parseRecursive, returnsColor, tagOf]
  | elem tag attrs children =>
    by_cases hg : tag = "group"
    · subst hg
      cases children with
      | nil => simp [parseRecursive, emitGroup_snd, returnsColor, tagOf, childrenOf]
      | cons c rest =>
        cases rest with
        | nil =>
          cases c with
          | comment ctxt =>
            simp [parseRecursive, emitGroup_snd, returnsColor, tagOf, childrenOf,
              isCharContainer]
          | elem ctag cattrs cch =>
            by_cases hs : ctag = "s"
            · subst hs
              cases explicitInvisible with
              | true =>
                rcases hname : getAttrib attrs "name" with _ | nm
                · rcases hlabel : getAttrib attrs "label" with _ | lb
                  · simp [parseRecursive, returnsColor, tagOf, childrenOf, attrsOf,
                      getCharData, isCharContainer, hname, hlabel]
                  · simp [parseRecursive, emitGroup_snd, returnsColor, tagOf, childrenOf,
                      attrsOf, isCharContainer, hname, hlabel]
                · simp [parseRecursive, emitGroup_snd, returnsColor, tagOf, childrenOf,
                    attrsOf, isCharContainer, hname]
              | false =>
                by_cases hvis : getAttribD attrs "visible" "yes" = "no"
                · rcases hname : getAttrib attrs "name" with _ | nm
                  · rcases hlabel : getAttrib attrs "label" with _ | lb
                    · simp [parseRecursive, returnsColor, tagOf, childrenOf, attrsOf,
                        getCharData, isCharContainer, hname, hlabel, hvis]
                    · simp [parseRecursive, emitGroup_snd, returnsColor, tagOf, childrenOf,
                        attrsOf, isCharContainer, hname, hlabel, hvis]
                  · simp [parseRecursive, emitGroup_snd, returnsColor, tagOf, childrenOf,
                      attrsOf, isCharContainer, hname, hvis]
                · have hvisb : (getAttribD attrs "visible" "yes" == "no") = false :=
                    beq_eq_false_iff_ne.mpr hvis
                  simp [parseRecursive, emitGroup_snd, returnsColor, tagOf, childrenOf,
                    attrsOf, isCharContainer, hvisb]
            · simp [parseRecursive, emitGroup_snd, returnsColor, tagOf, childrenOf,
                attrsOf, isCharContainer, hs]
        | cons c2 rest2 =>
          simp [parseRecursive, emitGroup_snd, returnsColor, tagOf, childrenOf]
    · by_cases hs : tag = "s"
      · subst hs
        simp [parseRecursive, returnsColor, tagOf, attrsOf, getCharData]
      · simp [parseRecursive, returnsColor, tagOf, hg, hs]

/-- Successful runs of the accent step: a strictly positive index yields
the two accent attributes from the palette, any other index leaves the
dictionary untouched. -/
theorem accentAttrs_spec (a0 : List (String × String)) (groupColor : Int)
    (colors : List Colour) (a1 : List (String × String))
    (h : accentAttrs a0 groupColor colors = Except.ok a1) :
    (0 < groupColor ∧ ∃ gc oc, colors.get? groupColor.toNat = some gc
      ∧ colors.get? 3 = some oc
      ∧ a1 = setAttr (setAttr a0 "groupColor" (printColour gc))
          "groupOutlineColor" (printColour oc))
    ∨ (¬0 < groupColor ∧ a1 = a0) := by
  unfold accentAttrs at h
  by_cases hgc : 0 < groupColor
  · rw [if_pos hgc] at h
    split at h
    · simp at h
    · rename_i gc hgcit
      split at h
      · simp at h
      · rename_i oc hocit
        injection h with h2
        exact Or.inl ⟨hgc, gc, oc, (getItem_eq_ok _ _ _).mp hgcit,
          (getItem_eq_ok _ _ _).mp hocit, h2.symm⟩
  · rw [if_neg hgc] at h
    injection h with h2
    exact Or.inr ⟨hgc, h2.symm⟩

/-- C5: for every palette whose declared name is not "Default", the
extractor does NOT successfully produce a document recording a parent
reference: the source line `output.attrib[parentName] = "Default"` reads
the undefined identifier `parentName` (the string quotes are missing), so
Python raises `NameError` and the run aborts with no output.  A palette
named "Default" skips that line, which is the only sense in which the
claim's second half holds. -/
theorem ExtractColors_nonDefault_nameError (paletteName : String)
    (colors : List Colour) (excludeColors : List (String × String))
    (h : paletteName ≠ "Default") :
    ExtractColors paletteName colors excludeColors
      = Except.error (PyErr.nameError "parentName") := by
  unfold ExtractColors
  rw [if_pos h]

/-- Witness for C5 at a palette named "Dark". -/
theorem ExtractColors_nonDefault_nameError_witness :
    ExtractColors "Dark" [] [] = Except.error (PyErr.nameError "parentName") :=
  ExtractColors_nonDefault_nameError "Dark" [] [] (by decide)

/-- C6 (counterexample): the fixed NamedColors table has 25 entries, not
the 24 the claim states. -/
theorem NamedColors_not_24 : NamedColors.length = 25 ∧ ¬NamedColors.length = 24 := by
  decide

/-- C6 (amended): the table has 25 entries, and for the default palette
processed with an empty baseline every one of the 25 named colors appears
as an attribute of the output document: the document's attributes are
exactly the palette name followed by the emitted named-color pairs, whose
names are exactly the table's 25 names in order, each carrying the hex
computed at the table row's slot. -/
theorem ExtractColors_default_namedColors (colors : List Colour) (res : ColorsOut)
    (h : ExtractColors "Default" colors [] = Except.ok res) :
    NamedColors.length = 25
    ∧ res.extracted.map Prod.fst = NamedColors.map Prod.snd
    ∧ attrsOf res.doc = ("name", "Default") :: res.extracted
    ∧ ∀ p ∈ NamedColors, ∃ c, colors.get? p.1 = some c
        ∧ (p.2, printColour c) ∈ res.extracted := by
  obtain ⟨-, hp, hattrs⟩ := ExtractColors_ok_inv _ _ _ _ h
  obtain ⟨hmap, hmem⟩ := processNamed_noBaseline _ _ _ hp
  have hnn : "name" ∉ NamedColors.map Prod.snd := by decide
  have hfold : res.extracted.foldl (fun acc p => setAttr acc p.1 p.2)
      [("name", "Default")] = [("name", "Default")] ++ res.extracted := by
    apply foldl_setAttr_of_fresh
    · intro x hx b hb
      have hb2 : b = ("name", "Default") := by simpa using hb
      rw [hb2]
      intro hcontra
      have hceq : "name" = x.1 := hcontra
      have hx1 : x.1 ∈ NamedColors.map Prod.snd := by
        rw [← hmap]
        exact List.mem_map_of_mem Prod.fst hx
      rw [hceq] at hnn
      exact hnn hx1
    · rw [hmap]
      decide
  refine ⟨by decide, hmap, ?_, hmem⟩
  rw [hattrs, hfold]
  rfl

/-- Witness for C6 (amended) on the all-default 243-colour palette. -/
theorem ExtractColors_default_namedColors_witness :
    (resOf defaultRun).extracted.map Prod.fst = NamedColors.map Prod.snd := by
  have h : ExtractColors "Default" colors243 [] = Except.ok (resOf defaultRun) := rfl
  exact (ExtractColors_default_namedColors colors243 (resOf defaultRun) h).2.1

/-- C4 (counterexample): with a baseline that maps `backgroundColor` to
the value this palette computes for it, the run succeeds but the returned
extraction map does NOT contain `backgroundColor` — the source records a
computed value into `extractedNamedColors` under the same guard that
suppresses the attribute, not unconditionally as the claim states.
(`inputLineColor`, which has no baseline entry, is both emitted and
recorded.) -/
theorem ExtractColors_suppressed_absent :
    Except.isOk suppressedRun = true
    ∧ getAttrib (resOf suppressedRun).extracted "backgroundColor" = none
    ∧ getAttrib (attrsOf (resOf suppressedRun).doc) "backgroundColor" = none
    ∧ getAttrib (resOf suppressedRun).extracted "inputLineColor" = some "#000000" := by
  exact ⟨rfl, rfl, rfl, rfl⟩

/-- C4 (amended): in every successful run, the returned extraction map
contains exactly the emitted entries: a pair `(name, hex)` is in the map
precisely when some table row carries that name at a slot whose computed
hex is `hex` and the baseline does not already map the name to that same
value.  Entries matching the baseline are absent from both the document
and the map. -/
theorem ExtractColors_extracted_mem_iff (paletteName : String)
    (colors : List Colour) (exclude : List (String × String)) (res : ColorsOut)
    (h : ExtractColors paletteName colors exclude = Except.ok res)
    (name hex : String) :
    (name, hex) ∈ res.extracted ↔
      ∃ i c, (i, name) ∈ NamedColors ∧ colors.get? i = some c
        ∧ hex = printColour c ∧ getAttrib exclude name ≠ some hex := by
  obtain ⟨-, hp, -⟩ := ExtractColors_ok_inv _ _ _ _ h
  exact processNamed_ok_mem_iff _ _ _ _ hp name hex

/-- Witness for C4 (amended): `inputLineColor` is recorded in the
suppressed-baseline run because its computed hex has no baseline entry. -/
theorem ExtractColors_extracted_mem_iff_witness :
    ("inputLineColor", "#000000") ∈ (resOf suppressedRun).extracted := by
  have h : ExtractColors "Default" colors243 [("backgroundColor", "#000000")]
      = Except.ok (resOf suppressedRun) := rfl
  refine (ExtractColors_extracted_mem_iff _ _ _ _ h "inputLineColor" "#000000").mpr ?_
  exact ⟨1, ⟨none, none, none, none⟩, by decide, by decide, by decide, by decide⟩

/-- C8 (counterexample): a group spec with accent index 0 receives
neither a `groupColor` nor a `groupOutlineColor` attribute, because the
source tests the strict `groupColor > 0`, not the claim's `≥ 0`; the run
still succeeds. -/
theorem addGroup_zero_no_accent :
    Except.isOk addGroupZeroRun = true
    ∧ getAttrib (attrsOf (nodeOf addGroupZeroRun)) "groupColor" = none
    ∧ getAttrib (attrsOf (nodeOf addGroupZeroRun)) "groupOutlineColor" = none := by
  exact ⟨rfl, rfl, rfl⟩

/-- C8 (amended): the emitted group-color-info record carries the primary
accent color (hex of the slot at `groupColor`) together with the outline
color (hex of slot 3) exactly when the accent index is strictly positive;
for index 0 or -1 it carries neither attribute. -/
theorem addGroup_accent_iff (colorsRange : List Nat) (name : String)
    (groupColor : Int) (generateAltColors : Bool) (colors : List Colour)
    (g : XNode) (h : addGroup colorsRange name groupColor generateAltColors colors
      = Except.ok g) :
    ((getAttrib (attrsOf g) "groupColor").isSome = true ↔ 0 < groupColor)
    ∧ ((getAttrib (attrsOf g) "groupOutlineColor").isSome = true ↔ 0 < groupColor)
    ∧ (0 < groupColor → ∃ gc oc, colors.get? groupColor.toNat = some gc
        ∧ colors.get? 3 = some oc
        ∧ getAttrib (attrsOf g) "groupColor" = some (printColour gc)
        ∧ getAttrib (attrsOf g) "groupOutlineColor" = some (printColour oc)) := by
  unfold addGroup at h
  split at h
  · simp at h
  · rename_i a1 hacc
    split at h
    · simp at h
    · rename_i seq hseq
      rcases accentAttrs_spec _ _ _ _ hacc with
        ⟨hpos, gc, oc, hgcv, hocv, ha1⟩ | ⟨hneg, ha1⟩
      · subst ha1
        split at h
        · split at h
          · simp at h
          · rename_i altSeq halt
            injection h with h2
            subst h2
            refine ⟨?_, ?_, fun _ => ⟨gc, oc, hgcv, hocv, ?_, ?_⟩⟩ <;>
              simp [attrsOf, getAttrib, setAttr, hpos]
        · injection h with h2
          subst h2
          refine ⟨?_, ?_, fun _ => ⟨gc, oc, hgcv, hocv, ?_, ?_⟩⟩ <;>
            simp [attrsOf, getAttrib, setAttr, hpos]
      · subst ha1
        split at h
        · split at h
          · simp at h
          · rename_i altSeq halt
            injection h with h2
            subst h2
            refine ⟨?_, ?_, fun hcontra => absurd hcontra hneg⟩ <;>
              simp [attrsOf, getAttrib, setAttr, hneg]
        · injection h with h2
          subst h2
          refine ⟨?_, ?_, fun hcontra => absurd hcontra hneg⟩ <;>
            simp [attrsOf, getAttrib, setAttr, hneg]

/-- Witness for C8 (amended) at accent index 111 on the 243-colour
palette. -/
theorem addGroup_accent_iff_witness :
    (getAttrib (attrsOf (nodeOf addGroupAccentRun)) "groupColor").isSome = true := by
  have h : addGroup [0] "uppercase" 111 false colors243
      = Except.ok (nodeOf addGroupAccentRun) := rfl
  exact (addGroup_accent_iff [0] "uppercase" 111 false colors243 _ h).1.mpr (by decide)
